import Mathlib

/-!
Shallow embedding of `src/fish_key_reader.cpp` (the fish_key_reader tool).

Wide characters and bytes are modelled as `Nat`.  The per-function `static`
windows of `should_exit` (4 bytes) and `sequence_name` (8 bytes) are passed
explicitly as lists; the external terminfo lookup `input_terminfo_get_name`
is a parameter of type `List Nat → Option String`.  Output written with
`fwprintf`/`fputws` is modelled as lists of strings, stdout and stderr kept
separate.  Time values (`timef()` doubles, seconds) are modelled as exact
microsecond counts (`Nat`), so `1000000 * (now - prev_tstamp)` becomes an
integer subtraction of microsecond timestamps.
-/

namespace FishKeyReader

/-- One uppercase hexadecimal digit, as `%X` prints it. -/
def hexDigit (n : Nat) : Char :=
  if n < 10 then Char.ofNat (0x30 + n) else Char.ofNat (0x37 + n)

/-- Fuel-driven accumulation of the uppercase hex digits of `n`. -/
def hexDigitsAux : Nat → Nat → List Char
  | 0, _ => []
  | _ + 1, 0 => []
  | fuel + 1, n => hexDigitsAux fuel (n / 16) ++ [hexDigit (n % 16)]

/-- Uppercase hexadecimal rendering of `n` with no padding (C `%X`). -/
def toHexUpper (n : Nat) : String :=
  if n = 0 then "0" else String.mk (hexDigitsAux n n)

/-- Pad `s` on the left with character `c` up to width `w` (printf field width). -/
def padLeftWith (c : Char) (w : Nat) (s : String) : String :=
  if s.length < w then String.mk (List.replicate (w - s.length) c) ++ s else s

/-- C `%0<w>lld`: zero padding goes after the minus sign. -/
def padIntZero (w : Nat) (n : Int) : String :=
  if n < 0 then "-" ++ padLeftWith ('0') (w - 1) (toString (-n))
  else padLeftWith ('0') w (toString n)

/-- C `%<w>lld`: space padding goes before the minus sign. -/
def padIntSpace (w : Nat) (n : Int) : String :=
  padLeftWith (' ') w (toString n)

/-- The `ctrl_symbolic_names` table: 32 entries, named at indices
7, 8, 9, 10, 11, 12, 13 and 27, `NULL` (here `none`) everywhere else. -/
def ctrl_symbolic_names (i : Nat) : Option String :=
  if i = 7 then some "\\a"
  else if i = 8 then some "\\b"
  else if i = 9 then some "\\t"
  else if i = 10 then some "\\n"
  else if i = 11 then some "\\v"
  else if i = 12 then some "\\f"
  else if i = 13 then some "\\r"
  else if i = 27 then some "\\e"
  else none

/-- Code points of the shell metacharacters needing escape in a bind command:
`[ ] ( ) < > * ? $ # ; & | ' "` together with both braces and the backslash
(`must_escape` in the source, which scans the wide string of those chars). -/
def escapeSet : List Nat :=
  [0x5B, 0x5D, 0x28, 0x29, 0x3C, 0x3E, 0x7B, 0x7D, 0x2A, 0x5C,
   0x3F, 0x24, 0x23, 0x3B, 0x26, 0x7C, 0x27, 0x22]

/-- `must_escape`. -/
def must_escape (wc : Nat) : Bool := escapeSet.contains wc

/-- `\cX` where `X = wc + 0x40` (the letter form of a control code). -/
def ctrlLetterForm (wc : Nat) : String :=
  "\\c" ++ String.mk [Char.ofNat (wc + 0x40)]

/-- `ctrl_to_symbol`. -/
def ctrl_to_symbol (wc : Nat) (bind_friendly : Bool) : String :=
  match ctrl_symbolic_names wc with
  | some name =>
    if bind_friendly then name
    else ctrlLetterForm wc ++ "  (or " ++ name ++ ")"
  | none => ctrlLetterForm wc

/-- `space_to_symbol`. -/
def space_to_symbol (wc : Nat) (bind_friendly : Bool) : String :=
  if bind_friendly then "\\x" ++ toHexUpper wc
  else "\\x" ++ toHexUpper wc ++ "  (aka \"space\")"

/-- `del_to_symbol`. -/
def del_to_symbol (wc : Nat) (bind_friendly : Bool) : String :=
  if bind_friendly then "\\x" ++ toHexUpper wc
  else "\\x" ++ toHexUpper wc ++ "  (aka \"del\")"

/-- `ascii_printable_to_symbol`. -/
def ascii_printable_to_symbol (wc : Nat) (bind_friendly : Bool) : String :=
  if bind_friendly && must_escape wc then "\\" ++ String.mk [Char.ofNat wc]
  else String.mk [Char.ofNat wc]

/-- `char_to_symbol` (the static buffer is modelled by returning the string). -/
def char_to_symbol (wc : Nat) (bind_friendly : Bool) : String :=
  if wc < 0x20 then ctrl_to_symbol wc bind_friendly
  else if wc = 0x20 then space_to_symbol wc bind_friendly
  else if wc = 0x7F then del_to_symbol wc bind_friendly
  else if wc < 0x80 then ascii_printable_to_symbol wc bind_friendly
  else if wc ≤ 0xFFFF then "\\u" ++ padLeftWith ('0') 4 (toHexUpper wc)
  else "\\U" ++ padLeftWith ('0') 6 (toHexUpper wc)

/-- The two relevant `shell_modes.c_cc` entries: the terminal's configured
interrupt (`VINTR`) and end-of-file (`VEOF`) characters. -/
structure TermModes where
  vintr : Nat
  veof : Nat
deriving DecidableEq, Repr

/-- `unsigned char c = wc < 0x80 ? wc : 0`. -/
def narrowCast (wc : Nat) : Nat := if wc < 0x80 then wc else 0

/-- Sliding-window push: drop the oldest byte, append the new one
(the four assignments `recent_chars[i] = recent_chars[i+1]` and
`recent_chars[3] = c`, and likewise for the 8-byte window). -/
def pushWindow (w : List Nat) (c : Nat) : List Nat := w.drop 1 ++ [c]

/-- The warning `Press [ctrl-X] again to exit` printed to stderr. -/
def pressAgainMsg (cc : Nat) : String :=
  "Press [ctrl-" ++ String.mk [Char.ofNat (cc + 0x40)] ++ "] again to exit\n"

/-- ASCII bytes of "exit" and of "quit" (the `memcmp` targets). -/
def exitBytes : List Nat := [0x65, 0x78, 0x69, 0x74]

def quitBytes : List Nat := [0x71, 0x75, 0x69, 0x74]

/-- `should_exit`.  The static 4-byte window `recent_chars` is passed in and
the updated window returned; the result is
(exit?, new window, stderr lines printed). -/
def should_exit (m : TermModes) (w : List Nat) (wc : Nat) :
    Bool × List Nat × List String :=
  let c := narrowCast wc
  let w2 := pushWindow w c
  if c = m.vintr then
    if w2.getD 2 0 = m.vintr then (true, w2, [])
    else (false, w2, [pressAgainMsg m.vintr])
  else if c = m.veof then
    if w2.getD 2 0 = m.veof then (true, w2, [])
    else (false, w2, [pressAgainMsg m.veof])
  else
    (decide (w2 = exitBytes) || decide (w2 = quitBytes), w2, [])

/-- The descending loop of `sequence_name`: starting at index `idx` and
going down to 0, look up the trailing `8 - idx` bytes of the window
(`str2wcstring(recent_chars + idx, 8 - idx)`), returning the first hit.
So `idx = 7` is the 1-byte suffix and `idx = 0` the whole window:
suffixes are tried shortest first. -/
def seqNameLoop (table : List Nat → Option String) (w : List Nat) :
    Nat → Option String
  | 0 => table w
  | idx + 1 =>
    match table (w.drop (idx + 1)) with
    | some name => some name
    | none => seqNameLoop table w idx

/-- `sequence_name`.  The static 8-byte window is passed in and returned;
`table` is the external `input_terminfo_get_name` boundary. -/
def sequence_name (table : List Nat → Option String) (w : List Nat)
    (wc : Nat) : Option String × List Nat :=
  let c := narrowCast wc
  let w2 := pushWindow w c
  (seqNameLoop table w2 7, w2)

/-- The full `bind ... 'do something'` line that `output_bind_command`
writes for a non-empty accumulator. -/
def bindLine (bind_chars : List Nat) : String :=
  "bind " ++ String.join (bind_chars.map (fun c => char_to_symbol c true))
    ++ " 'do something'\n"

/-- `output_bind_command`: (stdout lines printed, new accumulator). -/
def output_bind_command (bind_chars : List Nat) : List String × List Nat :=
  if bind_chars.length ≠ 0 then ([bindLine bind_chars], [])
  else ([], bind_chars)

/-- The stderr line of `output_info_about_char` (`hex: %4X  char: %ls`). -/
def output_info_about_char (wc : Nat) : String :=
  "hex: " ++ padLeftWith (' ') 4 (toHexUpper wc) ++ "  char: "
    ++ char_to_symbol wc false ++ "\n"

/-- The `bind -k <name> 'do something'` line of `output_matching_key_name`. -/
def bindKeyNameLine (name : String) : String :=
  "bind -k " ++ name ++ " 'do something'\n"

/-- Exactly the 14-space string printed when the timestamp is stale. -/
def fourteenSpaces : String := "              "

/-- `output_elapsed_time`.  Timestamps are exact microsecond counts, so
`delta_tstamp_us = 1000000 * (now - prev_tstamp)` is their integer
difference.  Returns (stderr output, new `prev_tstamp`, i.e. `now`). -/
def output_elapsed_time (now_us prev_us : Nat) (first_char_seen : Bool) :
    String × Nat :=
  let delta : Int := (now_us : Int) - (prev_us : Int)
  let brk := if 200000 ≤ delta ∧ first_char_seen = true then "\n" else ""
  let body :=
    if 1000000 ≤ delta then fourteenSpaces
    else "(" ++ padIntSpace 3 (delta.tdiv 1000) ++ "."
      ++ padIntZero 3 (delta.tmod 1000) ++ " ms)  "
  (brk ++ body, now_us)

/-- Signal numbers on the platform the tool targets. -/
def SIGHUP : Nat := 1

def SIGABRT : Nat := 6

def SIGSEGV : Nat := 11

def SIGTERM : Nat := 15

/-- `signal_handler`, restricted to its effect on this program's state:
the notice printed to stdout and the new value of `keep_running`
(the chaining to a previously installed handler is outside the model;
the `sig2wcs` name in the notice is elided). -/
def signal_handler (signo : Nat) (keep_running : Bool) : Bool × List String :=
  let out := ["signal #" ++ toString signo ++ " received\n"]
  if signo = SIGHUP ∨ signo = SIGTERM ∨ signo = SIGABRT ∨ signo = SIGSEGV then
    (false, out)
  else (keep_running, out)

/-- The farewell line printed when `should_exit` fires. -/
def exitingMsg : String := "\nExiting at your request.\n"

/-- One input-loop event: a decoded character (with its arrival time in
microseconds), a non-character event (timeout / stream end), or an
asynchronous signal delivery. -/
inductive Event where
  | ch (wc : Nat) (now_us : Nat)
  | timeout
  | sig (signo : Nat)
deriving DecidableEq, Repr

/-- The state of `process_input` plus the process-global `keep_running`
flag, the two static windows, and the output printed so far. -/
structure SessionState where
  keep_running : Bool
  first_char_seen : Bool
  prev_us : Nat
  bind_chars : List Nat
  exit_win : List Nat
  seq_win : List Nat
  outStd : List String
  outErr : List String
deriving DecidableEq, Repr

/-- The body of the character-event branch of the `process_input` loop:
elapsed time, append to the accumulator, info line, terminfo match (with
flush on a hit), then `should_exit`.  Returns the new state and whether
the loop `break`s (in which case the farewell line has been printed). -/
def step_char (m : TermModes) (table : List Nat → Option String)
    (s : SessionState) (wc now_us : Nat) : SessionState × Bool :=
  let tOut := (output_elapsed_time now_us s.prev_us s.first_char_seen).1
  let prev2 := (output_elapsed_time now_us s.prev_us s.first_char_seen).2
  let bc := s.bind_chars ++ [wc]
  let info := output_info_about_char wc
  let hit := (sequence_name table s.seq_win wc).1
  let seqWin2 := (sequence_name table s.seq_win wc).2
  let stdLines :=
    match hit with
    | some name => bindKeyNameLine name :: (output_bind_command bc).1
    | none => []
  let bc2 :=
    match hit with
    | some _ => (output_bind_command bc).2
    | none => bc
  let ex := (should_exit m s.exit_win wc).1
  let exitWin2 := (should_exit m s.exit_win wc).2.1
  let warn := (should_exit m s.exit_win wc).2.2
  let errLines := [tOut, info] ++ warn ++ if ex then [exitingMsg] else []
  ({ s with
      prev_us := prev2
      bind_chars := bc2
      seq_win := seqWin2
      exit_win := exitWin2
      outStd := s.outStd ++ stdLines
      outErr := s.outErr ++ errLines }, ex)

/-- The `process_input` loop run over a finite list of events.  Signals are
modelled as events that run `signal_handler` between iterations; the
`keep_running` check at the loop head happens before each event.  The run
stops when the loop would `return` (non-character event, first char seen,
not continuous), `break` (`should_exit`), find `keep_running` false, or
run out of supplied events. -/
def run (m : TermModes) (table : List Nat → Option String)
    (continuous_mode : Bool) : SessionState → List Event → SessionState
  | s, [] => s
  | s, e :: rest =>
    if s.keep_running = false then s
    else
      match e with
      | .sig n =>
        run m table continuous_mode
          { s with
              keep_running := (signal_handler n s.keep_running).1
              outStd := s.outStd ++ (signal_handler n s.keep_running).2 } rest
      | .timeout =>
        let s2 := { s with
          bind_chars := (output_bind_command s.bind_chars).2
          outStd := s.outStd ++ (output_bind_command s.bind_chars).1 }
        if s.first_char_seen = true ∧ continuous_mode = false then s2
        else run m table continuous_mode s2 rest
      | .ch wc now_us =>
        if (step_char m table s wc now_us).2 then (step_char m table s wc now_us).1
        else run m table continuous_mode
          { (step_char m table s wc now_us).1 with first_char_seen := true } rest

/-- The initial state of one `process_input` run: `keep_running` true,
both windows zero-initialised, everything else empty (the initial
`Press a key` prompt is left out of the output model). -/
def initialState : SessionState :=
  { keep_running := true
    first_char_seen := false
    prev_us := 0
    bind_chars := []
    exit_win := [0, 0, 0, 0]
    seq_win := [0, 0, 0, 0, 0, 0, 0, 0]
    outStd := []
    outErr := [] }

/-! ### Concrete instantiations of the external boundaries, for tests -/

/-- A terminfo table with no entries. -/
def emptyTable : List Nat → Option String := fun _ => none

/-- A terminfo table in which the 1-byte sequence `a` is a capability named
`short` and the 2-byte sequence `ba` a different capability named `long`. -/
def shortLongTable : List Nat → Option String := fun s =>
  if s = [0x61] then some "short"
  else if s = [0x62, 0x61] then some "long"
  else none

/-- Test harness: feed the bytes of `cs` to `should_exit` one after the
other, returning the result of the last call and the final window. -/
def feedAll (m : TermModes) (w : List Nat) (cs : List Nat) : Bool × List Nat :=
  cs.foldl (fun acc wc =>
    ((should_exit m acc.2 wc).1, (should_exit m acc.2 wc).2.1)) (false, w)

/-! ### Helper lemmas -/

/-- Whatever branch `should_exit` takes, the returned window is the pushed
window. -/
lemma should_exit_window (m : TermModes) (w : List Nat) (wc : Nat) :
    (should_exit m w wc).2.1 = pushWindow w (narrowCast wc) := by
  unfold should_exit
  dsimp only
  split <;> [split; skip] <;> [rfl; rfl; split <;> [split; skip] <;> rfl]

/-- `seqNameLoop` returns the hit at the largest index (shortest suffix)
when all larger indices up to the start miss. -/
lemma seqNameLoop_first (table : List Nat → Option String) (w : List Nat) :
    ∀ idx i n, i ≤ idx → table (w.drop i) = some n →
      (∀ j, i < j → j ≤ idx → table (w.drop j) = none) →
      seqNameLoop table w idx = some n := by
  intro idx
  induction idx with
  | zero =>
    intro i n hi hhit _
    interval_cases i
    simpa [seqNameLoop] using hhit
  | succ k ih =>
    intro i n hi hhit hmiss
    by_cases hik : i = k + 1
    · subst hik
      simp [seqNameLoop, hhit]
    · have hik2 : i ≤ k := Nat.lt_succ_iff.mp (lt_of_le_of_ne hi hik)
      have htop : table (w.drop (k + 1)) = none :=
        hmiss (k + 1) (Nat.lt_succ_of_le hik2) le_rfl
      simp only [seqNameLoop, htop]
      exact ih i n hik2 hhit (fun j h1 h2 => hmiss j h1 (Nat.le_succ_of_le h2))

/-! ### C1 -/

/-- C1: the claim predicts that with the 8-byte window ending in `b`,
pushing `a` — whose trailing two bytes are the length-2 capability
`ba` (named `long`), while the strictly shorter suffix `a` is a
different capability (named `short`) — returns the length-2 name
`long`.  The code returns `short`: the shorter suffix wins. -/
theorem C1_counterexample :
    shortLongTable
        ((pushWindow [0, 0, 0, 0, 0, 0, 0, 0x62] (narrowCast 0x61)).drop 6)
      = some "long" ∧
    (sequence_name shortLongTable [0, 0, 0, 0, 0, 0, 0, 0x62] 0x61).1
      = some "short" ∧
    (some "short" : Option String) ≠ some "long" := by
  refine ⟨rfl, rfl, by decide⟩

/-- C1 (amended): `sequence_name` tries the suffix lengths from 1 up to 8
(loop index 7 down to 0) and returns the name of the first — hence
SHORTEST — matching suffix: if the suffix dropped at index `i` is in the
table and every strictly shorter suffix (larger index `j ≤ 7`) misses,
the name at index `i` is returned. -/
theorem C1_theorem (table : List Nat → Option String) (w : List Nat)
    (wc : Nat) (i : Nat) (n : String) (hi : i ≤ 7)
    (hhit : table ((pushWindow w (narrowCast wc)).drop i) = some n)
    (hmiss : ∀ j, i < j → j ≤ 7 →
      table ((pushWindow w (narrowCast wc)).drop j) = none) :
    (sequence_name table w wc).1 = some n := by
  unfold sequence_name
  exact seqNameLoop_first table (pushWindow w (narrowCast wc)) 7 i n hi hhit hmiss

/-- Witness for C1 (amended) at the two-capability table: the 1-byte
suffix `a` is the hit at index 7 and there is no larger index, so the
matcher returns `short`. -/
theorem C1_theorem_witness :
    (sequence_name shortLongTable [0, 0, 0, 0, 0, 0, 0, 0x62] 0x61).1
      = some "short" :=
  C1_theorem shortLongTable [0, 0, 0, 0, 0, 0, 0, 0x62] 0x61 7 "short"
    (by decide) rfl (fun j h1 h2 => absurd (lt_of_lt_of_le h1 h2) (lt_irrefl 7))

/-! ### C2 -/

/-- C2: the claim predicts that the bind-friendly rendering of the named
control character 10 (newline) is its `\cX` letter form `\cJ`.  The code
renders the bare symbolic name `\n` instead. -/
theorem C2_counterexample :
    char_to_symbol 10 true = "\\n" ∧ ctrlLetterForm 10 = "\\cJ" ∧
    char_to_symbol 10 true ≠ ctrlLetterForm 10 := by
  refine ⟨rfl, rfl, by decide⟩

/-- C2 (amended): for every code point below 0x20, the non-bind-friendly
rendering is `\cX` (X = code point + 0x40) with `  (or <name>)` appended
for the eight named entries, while the bind-friendly rendering is the
bare symbolic name for named entries and `\cX` for unnamed ones. -/
theorem C2_theorem (wc : Nat) (h : wc < 0x20) :
    char_to_symbol wc false =
      ctrlLetterForm wc ++
        (match ctrl_symbolic_names wc with
         | some name => "  (or " ++ name ++ ")"
         | none => "") ∧
    char_to_symbol wc true = (ctrl_symbolic_names wc).getD (ctrlLetterForm wc) := by
  unfold char_to_symbol ctrl_to_symbol
  rcases hn : ctrl_symbolic_names wc with _ | name <;>
    simp [h, hn, String.append_empty, String.append_assoc]

/-- Witness for C2 (amended) at the named control character 10 and the
unnamed control character 1. -/
theorem C2_theorem_witness :
    char_to_symbol 10 false = ctrlLetterForm 10 ++ "  (or " ++ "\\n" ++ ")" ∧
    char_to_symbol 10 true = "\\n" ∧
    char_to_symbol 1 true = ctrlLetterForm 1 := by
  have h10 := C2_theorem 10 (by decide)
  have h1 := C2_theorem 1 (by decide)
  refine ⟨?_, ?_, ?_⟩
  · simpa [ctrl_symbolic_names, String.append_assoc] using h10.1
  · simpa [ctrl_symbolic_names] using h10.2
  · simpa [ctrl_symbolic_names] using h1.2

/-! ### C4 -/

/-- C4: the claim predicts exit iff the post-push window slot two positions
behind the newest one (the character from two events before) equals the
special character.  With prior window `[0,0,0,3]` (interrupt 3 received
one event ago, not two) and a new interrupt 3, the post-push window is
`[0,0,3,3]`, whose slot two behind the newest is `0 ≠ 3`, so the claim
predicts no exit — but the code exits: it compares the slot ONE position
behind the newest. -/
theorem C4_counterexample :
    (should_exit ⟨3, 4⟩ [0, 0, 0, 3] 3).1 = true ∧
    (pushWindow [0, 0, 0, 3] (narrowCast 3)).getD 1 0 ≠ 3 := by decide

/-- C4 (amended): when the pushed byte equals the configured interrupt
(resp. EOF) character, `should_exit` signals exit iff the slot ONE
position behind the newest slot of the post-push window — the character
received in the immediately preceding event — also equals it; otherwise
it prints the press-again warning and returns false. -/
theorem C4_theorem (m : TermModes) (a b c d wc : Nat) :
    (narrowCast wc = m.vintr →
      (((should_exit m [a, b, c, d] wc).1 = true ↔
          (pushWindow [a, b, c, d] (narrowCast wc)).getD 2 0 = m.vintr) ∧
        (d ≠ m.vintr →
          (should_exit m [a, b, c, d] wc).1 = false ∧
          (should_exit m [a, b, c, d] wc).2.2 = [pressAgainMsg m.vintr]))) ∧
    (narrowCast wc ≠ m.vintr → narrowCast wc = m.veof →
      (((should_exit m [a, b, c, d] wc).1 = true ↔
          (pushWindow [a, b, c, d] (narrowCast wc)).getD 2 0 = m.veof) ∧
        (d ≠ m.veof →
          (should_exit m [a, b, c, d] wc).1 = false ∧
          (should_exit m [a, b, c, d] wc).2.2 = [pressAgainMsg m.veof]))) := by
  constructor
  · intro h
    by_cases hd : d = m.vintr <;> simp [should_exit, pushWindow, h, hd]
  · intro hne h
    have hvv : m.veof ≠ m.vintr := h ▸ hne
    by_cases hd : d = m.veof <;> simp [should_exit, pushWindow, h, hd, hvv]

/-- Witness for C4 (amended): with defaults (interrupt 3, EOF 4), a second
consecutive interrupt exits, while an interrupt after a quiet window
warns and does not exit. -/
theorem C4_theorem_witness :
    (should_exit ⟨3, 4⟩ [0, 0, 0, 3] 3).1 = true ∧
    (should_exit ⟨3, 4⟩ [0, 0, 0, 0] 3).1 = false ∧
    (should_exit ⟨3, 4⟩ [0, 0, 0, 0] 3).2.2 = [pressAgainMsg 3] := by
  refine ⟨((C4_theorem ⟨3, 4⟩ 0 0 0 3 3).1 (by decide)).1.mpr (by decide),
    ((C4_theorem ⟨3, 4⟩ 0 0 0 0 3).1 (by decide)).2 (by decide)⟩

/-! ### C5 -/

/-- C5: a single occurrence of the configured interrupt (resp. EOF)
character returns false and emits only the press-again warning; an
immediately repeated occurrence returns true (and warns no further). -/
theorem C5_theorem (m : TermModes) (a b c d : Nat) :
    (m.vintr < 0x80 → d ≠ m.vintr →
      (should_exit m [a, b, c, d] m.vintr).1 = false ∧
      (should_exit m [a, b, c, d] m.vintr).2.2 = [pressAgainMsg m.vintr] ∧
      (should_exit m (should_exit m [a, b, c, d] m.vintr).2.1 m.vintr).1 = true ∧
      (should_exit m (should_exit m [a, b, c, d] m.vintr).2.1 m.vintr).2.2 = []) ∧
    (m.veof < 0x80 → m.veof ≠ m.vintr → d ≠ m.veof →
      (should_exit m [a, b, c, d] m.veof).1 = false ∧
      (should_exit m [a, b, c, d] m.veof).2.2 = [pressAgainMsg m.veof] ∧
      (should_exit m (should_exit m [a, b, c, d] m.veof).2.1 m.veof).1 = true ∧
      (should_exit m (should_exit m [a, b, c, d] m.veof).2.1 m.veof).2.2 = []) := by
  constructor
  · intro h1 hd
    have hc : narrowCast m.vintr = m.vintr := by simp [narrowCast, h1]
    have hw : (should_exit m [a, b, c, d] m.vintr).2.1 = [b, c, d, m.vintr] := by
      rw [should_exit_window]; simp [pushWindow, hc]
    refine ⟨?_, ?_, ?_, ?_⟩ <;>
      simp [should_exit, pushWindow, hc, hd, hw]
  · intro h1 hvv hd
    have hc : narrowCast m.veof = m.veof := by simp [narrowCast, h1]
    have hw : (should_exit m [a, b, c, d] m.veof).2.1 = [b, c, d, m.veof] := by
      rw [should_exit_window]; simp [pushWindow, hc]
    refine ⟨?_, ?_, ?_, ?_⟩ <;>
      simp [should_exit, pushWindow, hc, hd, hw, hvv]

/-- Witness for C5 at the default special characters (interrupt 3, EOF 4)
and a quiet initial window. -/
theorem C5_theorem_witness :
    ((should_exit ⟨3, 4⟩ [0, 0, 0, 0] 3).1 = false ∧
      (should_exit ⟨3, 4⟩ [0, 0, 0, 0] 3).2.2 = [pressAgainMsg 3] ∧
      (should_exit ⟨3, 4⟩ (should_exit ⟨3, 4⟩ [0, 0, 0, 0] 3).2.1 3).1 = true ∧
      (should_exit ⟨3, 4⟩ (should_exit ⟨3, 4⟩ [0, 0, 0, 0] 3).2.1 3).2.2 = []) ∧
    ((should_exit ⟨3, 4⟩ [0, 0, 0, 0] 4).1 = false ∧
      (should_exit ⟨3, 4⟩ [0, 0, 0, 0] 4).2.2 = [pressAgainMsg 4] ∧
      (should_exit ⟨3, 4⟩ (should_exit ⟨3, 4⟩ [0, 0, 0, 0] 4).2.1 4).1 = true ∧
      (should_exit ⟨3, 4⟩ (should_exit ⟨3, 4⟩ [0, 0, 0, 0] 4).2.1 4).2.2 = []) :=
  ⟨(C5_theorem ⟨3, 4⟩ 0 0 0 0).1 (by decide) (by decide),
   (C5_theorem ⟨3, 4⟩ 0 0 0 0).2 (by decide) (by decide) (by decide)⟩

/-! ### C6 -/

/-- C6: from any 4-byte window state, feeding the bytes of `exit` (or of
`quit`) makes `should_exit` return true on the fourth byte, provided the
final byte `t` is neither the configured interrupt nor EOF character;
feeding a further `e` (window then `xite`) returns false. -/
theorem C6_theorem (m : TermModes) (a b c d : Nat)
    (h1 : (0x74 : Nat) ≠ m.vintr) (h2 : (0x74 : Nat) ≠ m.veof) :
    (feedAll m [a, b, c, d] exitBytes).1 = true ∧
    (feedAll m [a, b, c, d] quitBytes).1 = true ∧
    (feedAll m [a, b, c, d] (exitBytes ++ [0x65])).1 = false := by
  refine ⟨?_, ?_, ?_⟩
  · simp only [feedAll, exitBytes, List.foldl_cons, List.foldl_nil,
      should_exit_window]
    simp only [pushWindow, narrowCast]
    norm_num
    simp [should_exit, pushWindow, narrowCast, h1, h2, exitBytes, quitBytes]
  · simp only [feedAll, quitBytes, List.foldl_cons, List.foldl_nil,
      should_exit_window]
    simp only [pushWindow, narrowCast]
    norm_num
    simp [should_exit, pushWindow, narrowCast, h1, h2, exitBytes, quitBytes]
  · simp only [feedAll, exitBytes, List.foldl_cons, List.foldl_nil,
      List.foldl_append, should_exit_window]
    simp only [pushWindow, narrowCast]
    norm_num
    by_cases hv : (0x65 : Nat) = m.vintr
    · simp [should_exit, pushWindow, narrowCast, ← hv]
    · by_cases he : (0x65 : Nat) = m.veof
      · simp [should_exit, pushWindow, narrowCast, hv, ← he]
      · simp [should_exit, pushWindow, narrowCast, hv, he, exitBytes,
          quitBytes]

/-- Witness for C6 with the default interrupt (3) and EOF (4) characters
and a zeroed window. -/
theorem C6_theorem_witness :
    (feedAll ⟨3, 4⟩ [0, 0, 0, 0] exitBytes).1 = true ∧
    (feedAll ⟨3, 4⟩ [0, 0, 0, 0] quitBytes).1 = true ∧
    (feedAll ⟨3, 4⟩ [0, 0, 0, 0] (exitBytes ++ [0x65])).1 = false :=
  C6_theorem ⟨3, 4⟩ 0 0 0 0 (by decide) (by decide)

/-! ### C7 -/

/-- C7: flushing a non-empty accumulator `[c1, ..., cn]` emits exactly one
line `bind ` ++ the bind-friendly renderings concatenated with no
separator ++ ` 'do something'` and a newline, then clears the
accumulator; flushing an empty accumulator emits nothing and leaves the
accumulator unchanged. -/
theorem C7_theorem (c : Nat) (cs : List Nat) :
    output_bind_command (c :: cs) =
      (["bind " ++
          String.join ((c :: cs).map (fun x => char_to_symbol x true)) ++
          " 'do something'\n"], []) ∧
    output_bind_command [] = ([], []) := by
  constructor
  · simp [output_bind_command, bindLine]
  · rfl

/-! ### C8 -/

/-- C8: with `delta_us` the microsecond difference between `now` and the
previous timestamp, a line break is emitted first iff
`delta_us ≥ 200000` and a character has been seen; then exactly 14
spaces are printed when `delta_us ≥ 1000000` (e.g. for 1500000), and
otherwise `(DDD.DDD ms)  ` with `delta_us / 1000` and `delta_us % 1000`;
the previous timestamp becomes `now` in every case. -/
theorem C8_theorem (now_us prev_us : Nat) (fcs : Bool) :
    (output_elapsed_time now_us prev_us fcs).2 = now_us ∧
    (output_elapsed_time now_us prev_us fcs).1 =
      (if 200000 ≤ (now_us : Int) - (prev_us : Int) ∧ fcs = true
          then "\n" else "") ++
        (if 1000000 ≤ (now_us : Int) - (prev_us : Int) then fourteenSpaces
         else "(" ++ padIntSpace 3 (((now_us : Int) - (prev_us : Int)).tdiv 1000)
           ++ "." ++ padIntZero 3 (((now_us : Int) - (prev_us : Int)).tmod 1000)
           ++ " ms)  ") ∧
    fourteenSpaces.length = 14 ∧
    (output_elapsed_time 1500000 0 true).1 = "\n" ++ fourteenSpaces ∧
    (output_elapsed_time 250000 0 true).1 = "\n" ++ "(250.000 ms)  " := by
  exact ⟨rfl, rfl, by decide, by decide, by decide⟩

/-! ### C9 -/

/-- C9: the handler reports every signal, sets `keep_running` to false
exactly for SIGHUP, SIGTERM, SIGABRT and SIGSEGV, and leaves it
unchanged for every other signal. -/
theorem C9_theorem (signo : Nat) (kr : Bool) :
    ((signo = SIGHUP ∨ signo = SIGTERM ∨ signo = SIGABRT ∨ signo = SIGSEGV) →
      signal_handler signo kr =
        (false, ["signal #" ++ toString signo ++ " received\n"])) ∧
    (¬(signo = SIGHUP ∨ signo = SIGTERM ∨ signo = SIGABRT ∨ signo = SIGSEGV) →
      signal_handler signo kr =
        (kr, ["signal #" ++ toString signo ++ " received\n"])) := by
  constructor <;> intro h <;> simp [signal_handler, h]

/-- Witness for C9 at SIGTERM (terminating: flag cleared) and SIGINT = 2
(not in the set: flag untouched). -/
theorem C9_theorem_witness :
    signal_handler 15 true = (false, ["signal #" ++ toString 15 ++ " received\n"]) ∧
    signal_handler 2 true = (true, ["signal #" ++ toString 2 ++ " received\n"]) :=
  ⟨(C9_theorem 15 true).1 (Or.inr (Or.inl rfl)),
   (C9_theorem 2 true).2 (by decide)⟩

/-! ### C10 -/

/-- Folding string concatenation over `l ++ [x]` appends `x` at the end. -/
lemma foldl_append_concat (x : String) : ∀ (l : List String) (init : String),
    List.foldl (· ++ ·) init (l ++ [x]) = List.foldl (· ++ ·) init l ++ x := by
  intro l
  induction l with
  | nil => intro init; rfl
  | cons a l ih => intro init; exact ih (init ++ a)

/-- `String.join` of a list with one more element at the end. -/
lemma join_concat (l : List String) (x : String) :
    String.join (l ++ [x]) = String.join l ++ x :=
  foldl_append_concat x l ""

/-- A terminfo table in which the 1-byte sequence `a` is the capability
`ka1`. -/
def ka1Table : List Nat → Option String := fun s =>
  if s = [0x61] then some "ka1" else none

/-- C10: on a character event the character is appended to the accumulator
before the terminfo matcher is consulted, so on a capability hit the
loop body prints the `bind -k <name>` line followed by the flush of the
accumulator INCLUDING the closing character: the generic `bind` line
renders the old accumulator followed by the bind-friendly form of the
character that completed the sequence, and the accumulator is cleared. -/
theorem C10_theorem (m : TermModes) (table : List Nat → Option String)
    (s : SessionState) (wc now_us : Nat) (name : String)
    (hname : (sequence_name table s.seq_win wc).1 = some name) :
    (step_char m table s wc now_us).1.outStd =
      s.outStd ++ [bindKeyNameLine name, bindLine (s.bind_chars ++ [wc])] ∧
    (step_char m table s wc now_us).1.bind_chars = [] ∧
    bindLine (s.bind_chars ++ [wc]) =
      "bind " ++ String.join (s.bind_chars.map (fun x => char_to_symbol x true))
        ++ char_to_symbol wc true ++ " 'do something'\n" := by
  refine ⟨?_, ?_, ?_⟩
  · simp [step_char, hname, output_bind_command, bindLine]
  · simp [step_char, hname, output_bind_command]
  · simp [bindLine, join_concat, String.append_assoc]

/-- Witness for C10: with the accumulator holding `b` and the byte `a`
completing the capability `ka1`, both the `bind -k ka1` line and the
flush line — which renders `ba` — are printed, and the accumulator is
cleared. -/
theorem C10_theorem_witness :
    (step_char ⟨3, 4⟩ ka1Table { initialState with bind_chars := [0x62] }
        0x61 7).1.outStd =
      ({ initialState with bind_chars := [0x62] } : SessionState).outStd ++
        [bindKeyNameLine "ka1", bindLine ([0x62] ++ [0x61])] ∧
    (step_char ⟨3, 4⟩ ka1Table { initialState with bind_chars := [0x62] }
        0x61 7).1.bind_chars = [] ∧
    bindLine ([0x62] ++ [0x61]) =
      "bind " ++ String.join ([0x62].map (fun x => char_to_symbol x true))
        ++ char_to_symbol 0x61 true ++ " 'do something'\n" :=
  C10_theorem ⟨3, 4⟩ ka1Table { initialState with bind_chars := [0x62] }
    0x61 7 "ka1" rfl

/-! ### C3 -/

/-- The four character events spelling `exit`, each at time 0. -/
def exitTrace : List Event :=
  [Event.ch 0x65 0, Event.ch 0x78 0, Event.ch 0x69 0, Event.ch 0x74 0]

/-- C3: the claim predicts that the accumulator is flushed before the loop
returns whenever the loop terminates with a non-empty accumulator,
including termination triggered by the exit-sequence detector.  Running
the loop on the four characters of `exit` terminates through
`should_exit` (the farewell line is the last stderr line) with the
accumulator still holding the four characters, and nothing — in
particular no `bind` line — was ever written to stdout. -/
theorem C3_counterexample :
    (run ⟨3, 4⟩ emptyTable true initialState exitTrace).outErr.getLast?
      = some exitingMsg ∧
    (run ⟨3, 4⟩ emptyTable true initialState exitTrace).bind_chars
      = [0x65, 0x78, 0x69, 0x74] ∧
    (run ⟨3, 4⟩ emptyTable true initialState exitTrace).outStd = [] := by
  refine ⟨rfl, rfl, rfl⟩

/-- C3 (amended): the pending `bind` line is emitted on the non-character
(timeout) paths — in particular single-shot termination through a
timeout flushes before returning — but termination through the
exit-sequence detector leaves the accumulator unflushed and writes
nothing further to stdout, and a loop that finds the keep-running flag
false returns at once without flushing anything. -/
theorem C3_theorem (m : TermModes) (table : List Nat → Option String)
    (cont : Bool) (s : SessionState) (c : Nat) (cs : List Nat)
    (wc now_us : Nat) (rest : List Event)
    (hkr : s.keep_running = true) (hf : s.first_char_seen = true)
    (hb : s.bind_chars = c :: cs)
    (hmiss : (sequence_name table s.seq_win wc).1 = none)
    (hex : (should_exit m s.exit_win wc).1 = true) :
    run m table false s (Event.timeout :: rest) =
      { s with bind_chars := [], outStd := s.outStd ++ [bindLine (c :: cs)] } ∧
    (run m table cont s [Event.ch wc now_us]).bind_chars =
      s.bind_chars ++ [wc] ∧
    (run m table cont s [Event.ch wc now_us]).outStd = s.outStd ∧
    run m table cont { s with keep_running := false }
        (Event.ch wc now_us :: rest) =
      { s with keep_running := false } := by
  refine ⟨?_, ?_, ?_, ?_⟩
  · simp [run, hkr, hf, hb, output_bind_command, bindLine]
  · simp [run, hkr, step_char, hmiss, hex]
  · simp [run, hkr, step_char, hmiss, hex]
  · simp [run]

/-- Witness for C3 (amended): a state with accumulator `[a]`, one
interrupt already in the exit window, and a second interrupt arriving:
the timeout path flushes, the exit path does not. -/
theorem C3_theorem_witness :
    run ⟨3, 4⟩ emptyTable false
        { initialState with
            first_char_seen := true, bind_chars := [0x61],
            exit_win := [0, 0, 0, 3] } [Event.timeout] =
      { ({ initialState with
            first_char_seen := true, bind_chars := [0x61],
            exit_win := [0, 0, 0, 3] } : SessionState) with
          bind_chars := [],
          outStd := ({ initialState with
            first_char_seen := true, bind_chars := [0x61],
            exit_win := [0, 0, 0, 3] } : SessionState).outStd
              ++ [bindLine ([0x61] : List Nat)] } ∧
    (run ⟨3, 4⟩ emptyTable true
        { initialState with
            first_char_seen := true, bind_chars := [0x61],
            exit_win := [0, 0, 0, 3] } [Event.ch 3 9]).bind_chars =
      ({ initialState with
          first_char_seen := true, bind_chars := [0x61],
          exit_win := [0, 0, 0, 3] } : SessionState).bind_chars ++ [3] ∧
    (run ⟨3, 4⟩ emptyTable true
        { initialState with
            first_char_seen := true, bind_chars := [0x61],
            exit_win := [0, 0, 0, 3] } [Event.ch 3 9]).outStd =
      ({ initialState with
          first_char_seen := true, bind_chars := [0x61],
          exit_win := [0, 0, 0, 3] } : SessionState).outStd ∧
    run ⟨3, 4⟩ emptyTable true
        { ({ initialState with
            first_char_seen := true, bind_chars := [0x61],
            exit_win := [0, 0, 0, 3] } : SessionState) with
          keep_running := false } [Event.ch 3 9] =
      { ({ initialState with
          first_char_seen := true, bind_chars := [0x61],
          exit_win := [0, 0, 0, 3] } : SessionState) with
        keep_running := false } := by
  have h := C3_theorem ⟨3, 4⟩ emptyTable true
    { initialState with
        first_char_seen := true, bind_chars := [0x61],
        exit_win := [0, 0, 0, 3] } 0x61 [] 3 9 [] rfl rfl rfl rfl rfl
  exact h

end FishKeyReader
